import Mathlib

/-!
Shallow embedding of the micelle density-profile solver
(`src/gc_pcsaft/micelles.rs`) of the feos repository.

All physical quantities are handled in reduced (dimensionless) units and
modelled by rationals.  The external collaborators (the bulk EOS, the grid
and convolution machinery and the inner DFT field solver, which live in the
`feos-core`, `feos-dft` and `quantity` crates and are not part of the source
under study) are abstracted into a capability record `DFTEnv`, following the
interface description of the specification.  The core logic of
`micelles.rs` — the specification closure `calculate_bulk_density`, the
profile lifecycle (`new`, `solve`, `solve_micelle`, `post_process`,
`update_specification`) and the outer CMC Newton iteration
(`critical_micelle`) — is translated line by line.
-/

/-- Error type of the core (`EosError` in feos-core).  `notConverged` carries
the name of the failed operation; `undefinedNumber` is the
numerical-reduction error of the specification; `external` stands for an
opaque collaborator error. -/
inductive EosError where
  | notConverged (op : String)
  | undefinedNumber
  | external (msg : String)
deriving DecidableEq

/-- Modelled from the spec: the reduction of a physical quantity obtained by
a division to a dimensionless number (`to_reduced` of the quantity crate,
which is not under the sources studied here).  Per the specification's error
model, a division producing a non-finite value fails with a
numerical-reduction error and is not retried. -/
def reduceDiv (num den : ℚ) : Except EosError ℚ :=
  if den = 0 then .error .undefinedNumber else .ok (num / den)

/-- `MicelleInitialization` (micelles.rs lines 10-13): either a Gaussian
external-potential seed `(peak, width)` or a directly supplied density
field.  Density fields are indexed by (segment row, grid point); the grid
has `n+1` points. -/
inductive MicelleInitialization (m n : ℕ) where
  | ExternalPotential (peak width : ℚ)
  | Density (density : Fin m → Fin (n+1) → ℚ)

/-- `MicelleInitialization::density` (micelles.rs lines 16-21). -/
def MicelleInitialization.density {m n : ℕ} :
    MicelleInitialization m n → Option (Fin m → Fin (n+1) → ℚ)
  | .ExternalPotential _ _ => none
  | .Density d => some d

/-- `MicelleSpecification` (micelles.rs lines 24-30). -/
inductive MicelleSpecification where
  | ChemicalPotential
  | Size (delta_n_surfactant : ℚ) (pressure : ℚ)
deriving DecidableEq

/-- A converged homogeneous bulk state (`State` of feos-core), reduced to the
observables the micelle core reads.  Two components: index 0 is the solvent
(water), index 1 the surfactant, following the indexing used throughout
`micelles.rs`. -/
structure BulkState where
  temperature : ℚ
  pressure : ℚ
  volume : ℚ
  density : ℚ
  molefracs : Fin 2 → ℚ
  partial_density : Fin 2 → ℚ
  dp_dni : Fin 2 → ℚ
  dmu_dni : Fin 2 → Fin 2 → ℚ

/-- Capability record for the external collaborators, modelled from the
spec's interface section: the EOS/bulk capability (`buildState`, `new_nvt`),
the grid capability (`axisSpherical`, `axisPolar`, `integrate` — the latter
respecting the geometry's volume element), the convolution/functional
capability (`grand_potential_density`, `moles`, `volume`), the inner DFT
field solver (`solveDensity`, whose first argument is the debug flag), the
segment-to-component map `componentIndex`, and `fexp`, abstracting the
floating-point exponential used by the Gaussian seed. -/
structure DFTEnv (m n : ℕ) where
  fexp : ℚ → ℚ
  componentIndex : Fin m → Fin 2
  volume : ℚ
  moles : (Fin m → Fin (n+1) → ℚ) → Fin 2 → ℚ
  integrate : (Fin (n+1) → ℚ) → ℚ
  grand_potential_density : (Fin m → Fin (n+1) → ℚ) → Except EosError (Fin (n+1) → ℚ)
  solveDensity : Bool → MicelleSpecification → (Fin m → Fin (n+1) → ℚ) →
      (Fin m → Fin (n+1) → ℚ) → BulkState → Except EosError (Fin m → Fin (n+1) → ℚ)
  buildState : ℚ → ℚ → (Fin 2 → ℚ) → Except EosError BulkState
  new_nvt : ℚ → (Fin 2 → ℚ) → Except EosError (ℚ × (Fin 2 → ℚ))
  initDensity : BulkState → Fin m → Fin (n+1) → ℚ

/-- `MicelleSpecification::calculate_bulk_density` (micelles.rs lines
35-64).  `env.new_nvt` stands for `State::new_nvt` evaluated at the trial
component densities and returns the Helmholtz energy density `f_bulk`
together with the chemical potentials; `env.volume` is `profile.volume()`
in reduced units.  The final division by `mu_w_bulk` goes through
`reduceDiv`, the spec-modelled fallible reduction. -/
def MicelleSpecification.calculate_bulk_density {m n : ℕ} (env : DFTEnv m n)
    (temperature : ℚ) (spec : MicelleSpecification)
    (bulk_density z : Fin 2 → ℚ) : Except EosError (Fin 2 → ℚ) :=
  match spec with
  | .ChemicalPotential => .ok bulk_density
  | .Size delta_n_surfactant pressure =>
      let rho_s_bulk := bulk_density 1
      let rho_w_bulk := bulk_density 0
      match env.new_nvt temperature (fun i => if i = 0 then rho_w_bulk else rho_s_bulk) with
      | .error e => .error e
      | .ok fm =>
          let f_bulk := fm.1
          let mu_s_bulk := fm.2 1
          let mu_w_bulk := fm.2 0
          let n_s_bulk := rho_s_bulk * env.volume
          match reduceDiv (pressure + f_bulk - rho_s_bulk * mu_s_bulk) mu_w_bulk with
          | .error e => .error e
          | .ok spec0 =>
              .ok (fun i => if i = 0 then spec0 else (delta_n_surfactant + n_s_bulk) / z i)

/-- The density-profile state (`DFTProfile` of feos-dft, reduced to the
fields `micelles.rs` reads and writes): the radial grid `r`, the density
field, the external potential, the owned bulk state and the attached
specification. -/
structure DFTProfile (m n : ℕ) where
  r : Fin (n+1) → ℚ
  density : Fin m → Fin (n+1) → ℚ
  external_potential : Fin m → Fin (n+1) → ℚ
  bulk : BulkState
  specification : MicelleSpecification

/-- `MicelleProfile` (micelles.rs lines 67-71). -/
structure MicelleProfile (m n : ℕ) where
  profile : DFTProfile m n
  delta_omega : Option ℚ
  delta_n : Option (Fin 2 → ℚ)

/-- The external potential built at construction (micelles.rs lines
146-153): a zero field of shape (segments × grid), whose row 0 is assigned
the Gaussian bump `peak * exp(-0.5 r²/width²)` when initializing by
potential. -/
def mkExternalPotential {m n : ℕ} (env : DFTEnv m n) (grid : Fin (n+1) → ℚ) :
    MicelleInitialization m n → Fin m → Fin (n+1) → ℚ
  | .ExternalPotential peak width => fun i k =>
      if i.val = 0 then peak * env.fexp (-(1/2) * grid k * grid k / (width * width)) else 0
  | .Density _ => fun _ _ => 0

/-- `MicelleProfile::new` (micelles.rs lines 134-185): build the external
potential, construct the profile (the inner `DFTProfile::new` initializes
the density from the supplied density when given, otherwise from the bulk —
abstracted as `env.initDensity`), attach the specification, and leave both
derived scalars undefined. -/
def MicelleProfile.new {m n : ℕ} (env : DFTEnv m n) (bulk : BulkState)
    (grid : Fin (n+1) → ℚ) (initialization : MicelleInitialization m n)
    (specification : MicelleSpecification) : MicelleProfile m n :=
  { profile :=
      { r := grid
        density := (initialization.density).getD (env.initDensity bulk)
        external_potential := mkExternalPotential env grid initialization
        bulk := bulk
        specification := specification }
    delta_omega := none
    delta_n := none }

/-- The grid capability: `Axis::new_spherical`/`Axis::new_polar` of
feos-dft, modelled from the spec as fallible producers of the radial grid
values from a point count and a physical width. -/
structure AxisEnv (n : ℕ) where
  axisSpherical : ℕ → ℚ → Except EosError (Fin (n+1) → ℚ)
  axisPolar : ℕ → ℚ → Except EosError (Fin (n+1) → ℚ)

/-- `MicelleProfile::new_spherical` (micelles.rs lines 187-200). -/
def MicelleProfile.new_spherical {m n : ℕ} (env : DFTEnv m n) (axes : AxisEnv n)
    (bulk : BulkState) (n_grid : ℕ) (width : ℚ)
    (initialization : MicelleInitialization m n)
    (specification : MicelleSpecification) : Except EosError (MicelleProfile m n) :=
  match axes.axisSpherical n_grid width with
  | .error e => .error e
  | .ok grid => .ok (MicelleProfile.new env bulk grid initialization specification)

/-- `MicelleProfile::new_cylindrical` (micelles.rs lines 202-215). -/
def MicelleProfile.new_cylindrical {m n : ℕ} (env : DFTEnv m n) (axes : AxisEnv n)
    (bulk : BulkState) (n_grid : ℕ) (width : ℚ)
    (initialization : MicelleInitialization m n)
    (specification : MicelleSpecification) : Except EosError (MicelleProfile m n) :=
  match axes.axisPolar n_grid width with
  | .error e => .error e
  | .ok grid => .ok (MicelleProfile.new env bulk grid initialization specification)

/-- `MicelleProfile::post_process` (micelles.rs lines 115-130): set
`delta_omega` to the grid integral of (grand-potential density + bulk
pressure) and `delta_n` to moles minus bulk partial density times profile
volume, component-wise. -/
def MicelleProfile.post_process {m n : ℕ} (env : DFTEnv m n)
    (p : MicelleProfile m n) : Except EosError (MicelleProfile m n) :=
  match env.grand_potential_density p.profile.density with
  | .error e => .error e
  | .ok gpd =>
      .ok { p with
            delta_omega := some (env.integrate (fun k => gpd k + p.profile.bulk.pressure))
            delta_n := some (fun j =>
              env.moles p.profile.density j - p.profile.bulk.partial_density j * env.volume) }

/-- `MicelleProfile::solve` / `solve_inplace` (micelles.rs lines 84-92):
one inner solve with debug off, then post-processing. -/
def MicelleProfile.solve {m n : ℕ} (env : DFTEnv m n)
    (p : MicelleProfile m n) : Except EosError (MicelleProfile m n) :=
  match env.solveDensity false p.profile.specification p.profile.density
      p.profile.external_potential p.profile.bulk with
  | .error e => .error e
  | .ok d => MicelleProfile.post_process env { p with profile := { p.profile with density := d } }

/-- `MicelleProfile::solve_micelle` / `solve_micelle_inplace` (micelles.rs
lines 94-113): a first solve with the external potential active and debug
forced on, then the external potential is filled with zero, then a second
solve and post-processing. -/
def MicelleProfile.solve_micelle {m n : ℕ} (env : DFTEnv m n)
    (p : MicelleProfile m n) : Except EosError (MicelleProfile m n) :=
  match env.solveDensity true p.profile.specification p.profile.density
      p.profile.external_potential p.profile.bulk with
  | .error e => .error e
  | .ok d1 =>
      match env.solveDensity false p.profile.specification d1
          (fun _ _ => 0) p.profile.bulk with
      | .error e => .error e
      | .ok d2 =>
          MicelleProfile.post_process env
            { p with profile :=
                { p.profile with density := d2, external_potential := fun _ _ => 0 } }

/-- `MicelleProfile::update_specification` (micelles.rs lines 217-223):
clone, attach the new specification, reset both derived scalars. -/
def MicelleProfile.update_specification {m n : ℕ} (p : MicelleProfile m n)
    (specification : MicelleSpecification) : MicelleProfile m n :=
  { profile := { p.profile with specification := specification }
    delta_omega := none
    delta_n := none }

/-- Solver options (`SolverOptions` of feos-core, reduced to the two fields
`critical_micelle` reads). -/
structure SolverOptions where
  max_iter : Option ℕ
  tol : Option ℚ

/-- `MAX_ITER_MICELLE` (micelles.rs line 226). -/
def MAX_ITER_MICELLE : ℕ := 50

/-- `TOL_MICELLE` (micelles.rs line 227): `1e-5`. -/
def TOL_MICELLE : ℚ := 1 / 100000

/-- Outcome of `critical_micelle`.  Rust's `unwrap()` on an absent
`delta_omega`/`delta_n` aborts the process; that abnormal exit is a
distinguished outcome here. -/
inductive CMResult (m n : ℕ) where
  | ok (p : MicelleProfile m n)
  | error (e : EosError)
  | panic

/-- Outcome of one body of the `critical_micelle` loop: either the loop
stops with a result, or it continues with the next profile state. -/
inductive IterOut (m n : ℕ) where
  | done (r : CMResult m n)
  | next (p : MicelleProfile m n)

/-- The rigid density shift of the CMC outer iteration (micelles.rs lines
276-285): every grid point of row `i` is moved by the same delta, the new
bulk partial density of the row's component minus the current domain-edge
density of the row. -/
def shiftDensity {m n : ℕ} (env : DFTEnv m n) (newBulk : BulkState)
    (density : Fin m → Fin (n+1) → ℚ) : Fin m → Fin (n+1) → ℚ :=
  fun i k =>
    density i k + newBulk.partial_density (env.componentIndex i) - density i (Fin.last n)

/-- One Newton step of `critical_micelle` (micelles.rs lines 255-288):
given the unwrapped `delta_omega` and `delta_n`, compute the closed-form
`domega_dx`, update the surfactant mole fraction, rebuild the bulk state at
the captured temperature and pressure, rigidly shift the density profile so
its domain-edge value matches the new bulk partial densities, and re-solve
(which post-processes). -/
def cmStep {m n : ℕ} (env : DFTEnv m n) (temperature pressure : ℚ)
    (p : MicelleProfile m n) (omega : ℚ) (dn : Fin 2 → ℚ) :
    Except EosError (MicelleProfile m n) :=
  let bulk := p.profile.bulk
  let x := bulk.molefracs 1
  let dp_drho := fun i => bulk.dp_dni i * bulk.volume
  let dmu_drho := fun i j => bulk.dmu_dni i j * bulk.volume
  let p_term := (dp_drho 1 - dp_drho 0) / (dp_drho 1 * x + dp_drho 0 * (1 - x))
  let a := dn 1 * dmu_drho 1 1 + dn 0 * dmu_drho 1 0
  let b := dn 1 * dmu_drho 0 1 + dn 0 * dmu_drho 0 0
  let domega_dx := -(((a - b) * x + b) * p_term + a - b) * bulk.density
  match reduceDiv omega domega_dx with
  | .error e => .error e
  | .ok step =>
      let x1 := x - step
      match env.buildState temperature pressure (fun i => if i = 0 then 1 - x1 else x1) with
      | .error e => .error e
      | .ok newBulk =>
          let shifted := shiftDensity env newBulk p.profile.density
          MicelleProfile.solve env
            { p with profile := { p.profile with bulk := newBulk, density := shifted } }

/-- One iteration body of the `critical_micelle` loop (micelles.rs lines
243-289): unwrap `delta_omega` (panicking when absent), return the current
profile when `|delta_omega| < tol * t`, otherwise unwrap `delta_n` and run
the Newton step. -/
def cmBody {m n : ℕ} (env : DFTEnv m n) (temperature pressure tol t : ℚ)
    (p : MicelleProfile m n) : IterOut m n :=
  match p.delta_omega with
  | none => .done .panic
  | some omega =>
      if |omega| < tol * t then .done (.ok p)
      else
        match p.delta_n with
        | none => .done .panic
        | some dn =>
            match cmStep env temperature pressure p omega dn with
            | .error e => .done (.error e)
            | .ok p1 => .next p1

/-- The bounded `for` loop of `critical_micelle`: run at most `fuel` bodies;
on exhaustion fail with the not-converged error carrying the (misspelled)
operation name of the source. -/
def cmLoop {m n : ℕ} (env : DFTEnv m n) (temperature pressure tol t : ℚ) :
    ℕ → MicelleProfile m n → CMResult m n
  | 0, _ => .error (.notConverged "MicelleProfile::criticelle_micelle")
  | fuel + 1, p =>
      match cmBody env temperature pressure tol t p with
      | .done res => res
      | .next p1 => cmLoop env temperature pressure tol t fuel p1

/-- Pin the specification to `ChemicalPotential`, as `critical_micelle`
does before entering its loop (micelles.rs line 241). -/
def pinSpecification {m n : ℕ} (p : MicelleProfile m n) : MicelleProfile m n :=
  { p with profile := { p.profile with specification := .ChemicalPotential } }

/-- `MicelleProfile::critical_micelle` (micelles.rs lines 230-294): capture
temperature (`t` is the same value in reduced units) and pressure from the
current bulk, pin the specification to `ChemicalPotential`, and run the
bounded loop with the caller's options falling back to the module
defaults. -/
def MicelleProfile.critical_micelle {m n : ℕ} (env : DFTEnv m n)
    (p : MicelleProfile m n) (options : SolverOptions) : CMResult m n :=
  let temperature := p.profile.bulk.temperature
  let t := temperature
  let pressure := p.profile.bulk.pressure
  cmLoop env temperature pressure (options.tol.getD TOL_MICELLE) t
    (options.max_iter.getD MAX_ITER_MICELLE) (pinSpecification p)

/-- One continuation step of the `critical_micelle` loop, as a partial map:
`some` exactly when the body neither converged, nor failed, nor panicked. -/
def cmNext {m n : ℕ} (env : DFTEnv m n) (temperature pressure tol t : ℚ)
    (p : MicelleProfile m n) : Option (MicelleProfile m n) :=
  match cmBody env temperature pressure tol t p with
  | .done _ => none
  | .next p1 => some p1

/-- The orbit of the `critical_micelle` loop: the profile at the start of
the `k`-th iteration, defined when the first `k` bodies all continued. -/
def cmOrbit {m n : ℕ} (env : DFTEnv m n) (temperature pressure tol t : ℚ) :
    ℕ → MicelleProfile m n → Option (MicelleProfile m n)
  | 0, p => some p
  | k + 1, p =>
      match cmNext env temperature pressure tol t p with
      | none => none
      | some p1 => cmOrbit env temperature pressure tol t k p1

/-- The excess grand potential computed by `post_process` from a
grand-potential density field `g`: the grid integral of `g` plus the bulk
pressure. -/
def excessGrandPotential {m n : ℕ} (env : DFTEnv m n) (prof : DFTProfile m n)
    (g : Fin (n+1) → ℚ) : ℚ :=
  env.integrate (fun k => g k + prof.bulk.pressure)

/-- The excess particle count computed by `post_process`: profile moles
minus bulk partial density times profile volume, component-wise. -/
def excessParticles {m n : ℕ} (env : DFTEnv m n) (prof : DFTProfile m n) :
    Fin 2 → ℚ :=
  fun j => env.moles prof.density j - prof.bulk.partial_density j * env.volume

/-- The derived scalars of a micelle profile are defined and agree with the
post-processing formulas evaluated at the profile's current density and
bulk state. -/
def scalarsConsistent {m n : ℕ} (env : DFTEnv m n) (p : MicelleProfile m n) : Prop :=
  ∃ g, env.grand_potential_density p.profile.density = .ok g
    ∧ p.delta_omega = some (excessGrandPotential env p.profile g)
    ∧ p.delta_n = some (excessParticles env p.profile)

/-- The state invariant of `MicelleProfile`: either both derived scalars
are undefined, or both are defined and consistent with the current density
and bulk state (i.e. they stem from a solve not followed by any mutation). -/
def micelleInvariant {m n : ℕ} (env : DFTEnv m n) (p : MicelleProfile m n) : Prop :=
  (p.delta_omega = none ∧ p.delta_n = none) ∨ scalarsConsistent env p

theorem post_process_ok_elim {m n : ℕ} (env : DFTEnv m n)
    (q p' : MicelleProfile m n) (h : MicelleProfile.post_process env q = .ok p') :
    p'.profile = q.profile ∧ scalarsConsistent env p' := by
  unfold MicelleProfile.post_process at h
  split at h
  · cases h
  · rename_i g hg
    cases h
    exact ⟨rfl, g, hg, rfl, rfl⟩

theorem solve_ok_elim {m n : ℕ} (env : DFTEnv m n) (p p' : MicelleProfile m n)
    (h : MicelleProfile.solve env p = .ok p') :
    ∃ d, env.solveDensity false p.profile.specification p.profile.density
          p.profile.external_potential p.profile.bulk = .ok d
      ∧ MicelleProfile.post_process env
          { p with profile := { p.profile with density := d } } = .ok p' := by
  unfold MicelleProfile.solve at h
  split at h
  · cases h
  · rename_i d hd
    exact ⟨d, hd, h⟩

theorem solve_micelle_ok_elim {m n : ℕ} (env : DFTEnv m n)
    (p p' : MicelleProfile m n) (h : MicelleProfile.solve_micelle env p = .ok p') :
    ∃ d1 d2,
      env.solveDensity true p.profile.specification p.profile.density
          p.profile.external_potential p.profile.bulk = .ok d1
      ∧ env.solveDensity false p.profile.specification d1 (fun _ _ => 0)
          p.profile.bulk = .ok d2
      ∧ MicelleProfile.post_process env
          { p with profile :=
              { p.profile with density := d2, external_potential := fun _ _ => 0 } }
          = .ok p' := by
  unfold MicelleProfile.solve_micelle at h
  split at h
  · cases h
  · rename_i d1 hd1
    split at h
    · cases h
    · rename_i d2 hd2
      exact ⟨d1, d2, hd1, hd2, h⟩

theorem solve_ok_scalars {m n : ℕ} (env : DFTEnv m n) (p p' : MicelleProfile m n)
    (h : MicelleProfile.solve env p = .ok p') : scalarsConsistent env p' := by
  obtain ⟨d, _, hpp⟩ := solve_ok_elim env p p' h
  exact (post_process_ok_elim env _ p' hpp).2

theorem solve_micelle_ok_scalars {m n : ℕ} (env : DFTEnv m n)
    (p p' : MicelleProfile m n) (h : MicelleProfile.solve_micelle env p = .ok p') :
    scalarsConsistent env p' := by
  obtain ⟨d1, d2, _, _, hpp⟩ := solve_micelle_ok_elim env p p' h
  exact (post_process_ok_elim env _ p' hpp).2

theorem cmStep_ok_elim {m n : ℕ} (env : DFTEnv m n) (temperature pressure : ℚ)
    (p : MicelleProfile m n) (omega : ℚ) (dn : Fin 2 → ℚ) (p' : MicelleProfile m n)
    (h : cmStep env temperature pressure p omega dn = .ok p') :
    ∃ q, MicelleProfile.solve env q = .ok p' := by
  simp only [cmStep] at h
  split at h
  · cases h
  · split at h
    · cases h
    · exact ⟨_, h⟩

theorem cmLoop_succ_done {m n : ℕ} (env : DFTEnv m n) (T P tol t : ℚ) (fuel : ℕ)
    (p : MicelleProfile m n) (res : CMResult m n)
    (h : cmBody env T P tol t p = .done res) :
    cmLoop env T P tol t (fuel + 1) p = res := by
  simp only [cmLoop, h]

theorem cmLoop_succ_next {m n : ℕ} (env : DFTEnv m n) (T P tol t : ℚ) (fuel : ℕ)
    (p p1 : MicelleProfile m n) (h : cmBody env T P tol t p = .next p1) :
    cmLoop env T P tol t (fuel + 1) p = cmLoop env T P tol t fuel p1 := by
  simp only [cmLoop, h]

theorem cmBody_panic_of_none {m n : ℕ} (env : DFTEnv m n) (T P tol t : ℚ)
    (p : MicelleProfile m n) (h : p.delta_omega = none) :
    cmBody env T P tol t p = .done .panic := by
  simp only [cmBody, h]

theorem cmBody_done_ok {m n : ℕ} (env : DFTEnv m n) (T P tol t : ℚ)
    (p : MicelleProfile m n) (omega : ℚ) (h1 : p.delta_omega = some omega)
    (h2 : |omega| < tol * t) : cmBody env T P tol t p = .done (.ok p) := by
  simp only [cmBody, h1, if_pos h2]

theorem cmBody_next_elim {m n : ℕ} (env : DFTEnv m n) (T P tol t : ℚ)
    (p p1 : MicelleProfile m n) (h : cmBody env T P tol t p = .next p1) :
    ∃ omega dn, p.delta_omega = some omega ∧ p.delta_n = some dn
      ∧ cmStep env T P p omega dn = .ok p1 := by
  unfold cmBody at h
  split at h
  · cases h
  · rename_i omega homega
    split at h
    · cases h
    · split at h
      · cases h
      · rename_i dn hdn
        split at h
        · cases h
        · rename_i q hq
          cases h
          exact ⟨omega, dn, homega, hdn, hq⟩

theorem cmNext_some_elim {m n : ℕ} (env : DFTEnv m n) (T P tol t : ℚ)
    (p p1 : MicelleProfile m n) (h : cmNext env T P tol t p = some p1) :
    cmBody env T P tol t p = .next p1 := by
  unfold cmNext at h
  split at h
  · cases h
  · rename_i q hq
    cases h
    exact hq

theorem cmOrbit_converged_loop {m n : ℕ} (env : DFTEnv m n) (T P tol t : ℚ) :
    ∀ (k fuel : ℕ) (p q : MicelleProfile m n) (omega : ℚ),
      cmOrbit env T P tol t k p = some q → q.delta_omega = some omega →
      |omega| < tol * t → k < fuel →
      cmLoop env T P tol t fuel p = .ok q := by
  intro k
  induction k with
  | zero =>
      intro fuel p q omega horb h1 h2 hk
      cases fuel with
      | zero => exact absurd hk (Nat.lt_irrefl 0)
      | succ f =>
          cases horb
          exact cmLoop_succ_done env T P tol t f p (.ok p)
            (cmBody_done_ok env T P tol t p omega h1 h2)
  | succ k ih =>
      intro fuel p q omega horb h1 h2 hk
      unfold cmOrbit at horb
      split at horb
      · cases horb
      · rename_i p1 hnext
        cases fuel with
        | zero => exact absurd hk (Nat.not_lt_zero _)
        | succ f =>
            rw [cmLoop_succ_next env T P tol t f p p1
              (cmNext_some_elim env T P tol t p p1 hnext)]
            exact ih f p1 q omega horb h1 h2 (Nat.succ_lt_succ_iff.mp hk)

theorem cmOrbit_full_loop {m n : ℕ} (env : DFTEnv m n) (T P tol t : ℚ) :
    ∀ (fuel : ℕ) (p q : MicelleProfile m n),
      cmOrbit env T P tol t fuel p = some q →
      cmLoop env T P tol t fuel p
        = .error (.notConverged "MicelleProfile::criticelle_micelle") := by
  intro fuel
  induction fuel with
  | zero => intro p q _; rfl
  | succ f ih =>
      intro p q horb
      unfold cmOrbit at horb
      split at horb
      · cases horb
      · rename_i p1 hnext
        rw [cmLoop_succ_next env T P tol t f p p1
          (cmNext_some_elim env T P tol t p p1 hnext)]
        exact ih p1 q horb

theorem cmLoop_no_panic {m n : ℕ} (env : DFTEnv m n) (T P tol t : ℚ) :
    ∀ (fuel : ℕ) (p : MicelleProfile m n),
      p.delta_omega.isSome → p.delta_n.isSome →
      cmLoop env T P tol t fuel p ≠ .panic := by
  intro fuel
  induction fuel with
  | zero => intro p _ _ h; cases h
  | succ f ih =>
      intro p h1 h2 hcontra
      obtain ⟨omega, ho⟩ := Option.isSome_iff_exists.mp h1
      obtain ⟨dn, hn⟩ := Option.isSome_iff_exists.mp h2
      by_cases hc : |omega| < tol * t
      · rw [cmLoop_succ_done env T P tol t f p (.ok p)
          (cmBody_done_ok env T P tol t p omega ho hc)] at hcontra
        cases hcontra
      · cases hstep : cmStep env T P p omega dn with
        | error e =>
            rw [cmLoop_succ_done env T P tol t f p (.error e)
              (by simp only [cmBody, ho, if_neg hc, hn, hstep])] at hcontra
            cases hcontra
        | ok p1 =>
            rw [cmLoop_succ_next env T P tol t f p p1
              (by simp only [cmBody, ho, if_neg hc, hn, hstep])] at hcontra
            obtain ⟨q, hq⟩ := cmStep_ok_elim env T P p omega dn p1 hstep
            obtain ⟨g, _, hdo, hdn⟩ := solve_ok_scalars env q p1 hq
            exact ih p1 (by simp [hdo]) (by simp [hdn]) hcontra

/-- Concrete chemical potentials with a nonzero solvent entry, for witness
instances. -/
def muA : Fin 2 → ℚ := fun i => if i = 0 then 2 else 3

/-- Concrete chemical potentials whose solvent entry is zero, for witness
instances of the failing reduction. -/
def muB : Fin 2 → ℚ := fun i => if i = 0 then 0 else 3

/-- A concrete bulk state for witness instances. -/
def bulkA : BulkState :=
  { temperature := 1
    pressure := 1
    volume := 1
    density := 1
    molefracs := fun _ => 1/2
    partial_density := fun _ => 1/2
    dp_dni := fun _ => 1
    dmu_dni := fun _ _ => 1 }

/-- A concrete collaborator environment (two segment rows, one grid point)
whose inner solver returns the density unchanged; used for witness
instances. -/
def envA : DFTEnv 2 0 :=
  { fexp := fun x => 1 + x
    componentIndex := fun i => i
    volume := 1
    moles := fun d j => d j 0
    integrate := fun f => f 0
    grand_potential_density := fun d => .ok (fun k => d 0 k)
    solveDensity := fun _ _ d _ _ => .ok d
    buildState := fun T P x => .ok
      { temperature := T, pressure := P, volume := 1, density := 1
        molefracs := x, partial_density := x
        dp_dni := fun _ => 1, dmu_dni := fun _ _ => 1 }
    new_nvt := fun _ _ => .ok (1, muA)
    initDensity := fun _ _ _ => 1 }

/-- `envA` with a trial state whose solvent chemical potential is zero. -/
def envB : DFTEnv 2 0 := { envA with new_nvt := fun _ _ => .ok (1, muB) }

/-- A concrete grid capability for witness instances. -/
def axesA : AxisEnv 0 :=
  { axisSpherical := fun _ _ => .ok (fun _ => 0)
    axisPolar := fun _ _ => .ok (fun _ => 0) }

/-- A freshly constructed concrete profile (derived scalars undefined). -/
def profileA : MicelleProfile 2 0 :=
  { profile :=
      { r := fun _ => 0
        density := fun _ _ => 1
        external_potential := fun _ _ => 1
        bulk := bulkA
        specification := .ChemicalPotential }
    delta_omega := none
    delta_n := none }

/-- `profileA` with both derived scalars defined (as after a solve whose
excess grand potential happens to vanish). -/
def profileB : MicelleProfile 2 0 :=
  { profileA with delta_omega := some 0, delta_n := some (fun _ => 0) }

/-- C1 (amended): when a `MicelleProfile` is constructed via `new_spherical`
or `new_cylindrical` with initialization `ExternalPotential(peak, width)`,
the external potential is seeded as the Gaussian bump
`peak * exp(-r^2/(2 width^2))` on row 0 — the first component row, which is
the solvent under this module's component ordering — and every entry of
every other row (all grid points of all other rows) is zero. -/
theorem external_potential_seed_row_zero {m n : ℕ} (env : DFTEnv m n)
    (axes : AxisEnv n) (bulk : BulkState) (n_grid : ℕ) (aw peak gw : ℚ)
    (grid : Fin (n+1) → ℚ) (spec : MicelleSpecification) (i : Fin m) (k : Fin (n+1)) :
    (axes.axisSpherical n_grid aw = .ok grid →
      MicelleProfile.new_spherical env axes bulk n_grid aw
          (.ExternalPotential peak gw) spec
        = .ok (MicelleProfile.new env bulk grid (.ExternalPotential peak gw) spec))
    ∧ (axes.axisPolar n_grid aw = .ok grid →
      MicelleProfile.new_cylindrical env axes bulk n_grid aw
          (.ExternalPotential peak gw) spec
        = .ok (MicelleProfile.new env bulk grid (.ExternalPotential peak gw) spec))
    ∧ (MicelleProfile.new env bulk grid
          (.ExternalPotential peak gw) spec).profile.external_potential i k
      = (if i.val = 0
          then peak * env.fexp (-(1/2) * grid k * grid k / (gw * gw)) else 0) := by
  refine ⟨?_, ?_, rfl⟩
  · intro h
    simp [MicelleProfile.new_spherical, h]
  · intro h
    simp [MicelleProfile.new_cylindrical, h]

theorem external_potential_seed_row_zero_witness :
    MicelleProfile.new_spherical envA axesA bulkA 1 1
        (.ExternalPotential 1 1) .ChemicalPotential
      = .ok (MicelleProfile.new envA bulkA (fun _ => 0)
        (.ExternalPotential 1 1) .ChemicalPotential) :=
  (external_potential_seed_row_zero envA axesA bulkA 1 1 1 1 (fun _ => 0)
    .ChemicalPotential 0 0).1 rfl

/-- C1 counterexample: under the component ordering used throughout
micelles.rs (index 0 the solvent, index 1 the surfactant — see
`calculate_bulk_density` and the Newton step), the claim demands a zero
entry on the solvent row and the Gaussian bump on the surfactant row 1.
The code does the opposite: with `peak = width = 1` and `r = 0` (where
`fexp 0 = 1`), the solvent row 0 carries `peak * fexp 0 = 1 ≠ 0` and the
surfactant row 1 is zero, not `peak * fexp 0`. -/
theorem gaussian_seed_surfactant_counterexample :
    ¬ ((MicelleProfile.new envA bulkA (fun _ => 0) (.ExternalPotential 1 1)
          .ChemicalPotential).profile.external_potential 0 0 = 0
       ∧ (MicelleProfile.new envA bulkA (fun _ => 0) (.ExternalPotential 1 1)
          .ChemicalPotential).profile.external_potential 1 0
          = 1 * envA.fexp (-(1/2) * 0 * 0 / (1 * 1))) := by
  rintro ⟨h1, -⟩
  simp [MicelleProfile.new, mkExternalPotential, envA] at h1

/-- C2: `calculate_bulk_density` returns the input unchanged for
`ChemicalPotential`; for `Size{delta_n_surfactant, pressure}` it consults
the trial homogeneous state at the input component densities and, provided
the solvent chemical potential is nonzero, returns the vector
`(delta_n_surfactant + n_s_bulk) / z` whose first (solvent) entry is
overridden with `(pressure + f_bulk - rho_s * mu_s) / mu_w`, the solution
of the grand-potential balance. -/
theorem calculate_bulk_density_characterization {m n : ℕ} (env : DFTEnv m n)
    (temperature : ℚ) (bulk_density z : Fin 2 → ℚ) (dns pressure f_bulk : ℚ)
    (mu : Fin 2 → ℚ)
    (hnvt : env.new_nvt temperature
        (fun i => if i = 0 then bulk_density 0 else bulk_density 1)
      = .ok (f_bulk, mu))
    (hmu : mu 0 ≠ 0) :
    MicelleSpecification.calculate_bulk_density env temperature .ChemicalPotential
        bulk_density z = .ok bulk_density
    ∧ MicelleSpecification.calculate_bulk_density env temperature
        (.Size dns pressure) bulk_density z
      = .ok (fun i => if i = 0
          then (pressure + f_bulk - bulk_density 1 * mu 1) / mu 0
          else (dns + bulk_density 1 * env.volume) / z i) := by
  refine ⟨rfl, ?_⟩
  simp only [MicelleSpecification.calculate_bulk_density, hnvt, reduceDiv, if_neg hmu]

theorem calculate_bulk_density_characterization_witness :
    MicelleSpecification.calculate_bulk_density envA 1 (.Size 1 1)
        (fun _ => 1) (fun _ => 1)
      = .ok (fun i => if i = 0
          then ((1:ℚ) + 1 - 1 * muA 1) / muA 0
          else ((1:ℚ) + 1 * envA.volume) / 1) :=
  (calculate_bulk_density_characterization envA 1 (fun _ => 1) (fun _ => 1)
    1 1 1 muA rfl (by decide)).2

/-- C8: in the `Size` variant, the reduction of the solvent boundary
density is undefined when the solvent bulk chemical potential is zero
(the division produces a non-finite value); under the spec's error model
the function returns the numerical-reduction error — not a non-finite
density — and does not retry. -/
theorem calculate_bulk_density_zero_mu_error {m n : ℕ} (env : DFTEnv m n)
    (temperature : ℚ) (bulk_density z : Fin 2 → ℚ) (dns pressure f_bulk : ℚ)
    (mu : Fin 2 → ℚ)
    (hnvt : env.new_nvt temperature
        (fun i => if i = 0 then bulk_density 0 else bulk_density 1)
      = .ok (f_bulk, mu))
    (hmu : mu 0 = 0) :
    MicelleSpecification.calculate_bulk_density env temperature
        (.Size dns pressure) bulk_density z = .error .undefinedNumber := by
  have hred : reduceDiv (pressure + f_bulk - bulk_density 1 * mu 1) (mu 0)
      = .error .undefinedNumber := by
    rw [hmu]
    rfl
  simp only [MicelleSpecification.calculate_bulk_density, hnvt, hred]

theorem calculate_bulk_density_zero_mu_error_witness :
    MicelleSpecification.calculate_bulk_density envB 1 (.Size 1 1)
        (fun _ => 1) (fun _ => 1) = .error .undefinedNumber :=
  calculate_bulk_density_zero_mu_error envB 1 (fun _ => 1) (fun _ => 1)
    1 1 1 muB rfl (by decide)

/-- C5: `solve_micelle` performs the two-stage solve in order — first an
inner solve with the external potential active and debug forced on, then
the external potential is set identically to zero, then a second solve and
post-processing — so after every successful `solve_micelle` the external
potential is zero at every (row, grid point). -/
theorem solve_micelle_two_stage {m n : ℕ} (env : DFTEnv m n)
    (p p' : MicelleProfile m n) (h : MicelleProfile.solve_micelle env p = .ok p') :
    (∀ (i : Fin m) (k : Fin (n+1)), p'.profile.external_potential i k = 0)
    ∧ ∃ d1 d2,
        env.solveDensity true p.profile.specification p.profile.density
            p.profile.external_potential p.profile.bulk = .ok d1
        ∧ env.solveDensity false p.profile.specification d1 (fun _ _ => 0)
            p.profile.bulk = .ok d2
        ∧ MicelleProfile.post_process env
            { p with profile :=
                { p.profile with density := d2, external_potential := fun _ _ => 0 } }
            = .ok p' := by
  obtain ⟨d1, d2, h1, h2, h3⟩ := solve_micelle_ok_elim env p p' h
  refine ⟨?_, d1, d2, h1, h2, h3⟩
  intro i k
  have hp := (post_process_ok_elim env _ p' h3).1
  rw [hp]

/-- The profile produced by `solve_micelle envA profileA`: density
unchanged by the trivial inner solver, external potential cleared, scalars
post-processed. -/
def profileASolved : MicelleProfile 2 0 :=
  { profile :=
      { r := fun _ => 0
        density := fun _ _ => 1
        external_potential := fun _ _ => 0
        bulk := bulkA
        specification := .ChemicalPotential }
    delta_omega := some 2
    delta_n := some (fun _ => 1/2) }

theorem solve_micelle_two_stage_witness :
    profileASolved.profile.external_potential 0 0 = 0 :=
  (solve_micelle_two_stage envA profileA profileASolved (by
    simp only [MicelleProfile.solve_micelle, MicelleProfile.post_process, envA,
      profileA, profileASolved]
    norm_num [bulkA, funext_iff])).1 0 0

/-- The profile produced by the single-stage `solve envA profileA`: density
unchanged, external potential retained, scalars post-processed. -/
def profileASolveResult : MicelleProfile 2 0 :=
  { profile :=
      { r := fun _ => 0
        density := fun _ _ => 1
        external_potential := fun _ _ => 1
        bulk := bulkA
        specification := .ChemicalPotential }
    delta_omega := some 2
    delta_n := some (fun _ => 1/2) }

/-- C6: after any successful solve (single-stage `solve` or two-stage
`solve_micelle`, both of which end in `post_process`), `delta_omega` equals
the grid integral — the geometry's volume element living in the `integrate`
capability — of the grand-potential density of the solved profile plus the
bulk pressure, and `delta_n` equals, component-wise, the profile moles
minus bulk partial density times profile volume. -/
theorem post_process_excess_quantities {m n : ℕ} (env : DFTEnv m n)
    (p p' q q' : MicelleProfile m n) :
    (MicelleProfile.solve env p = .ok p' →
      ∃ g, env.grand_potential_density p'.profile.density = .ok g
        ∧ p'.delta_omega = some (excessGrandPotential env p'.profile g)
        ∧ p'.delta_n = some (excessParticles env p'.profile))
    ∧ (MicelleProfile.solve_micelle env q = .ok q' →
      ∃ g, env.grand_potential_density q'.profile.density = .ok g
        ∧ q'.delta_omega = some (excessGrandPotential env q'.profile g)
        ∧ q'.delta_n = some (excessParticles env q'.profile)) :=
  ⟨solve_ok_scalars env p p', solve_micelle_ok_scalars env q q'⟩

theorem post_process_excess_quantities_witness :
    ∃ g, envA.grand_potential_density profileASolveResult.profile.density = .ok g
      ∧ profileASolveResult.delta_omega
        = some (excessGrandPotential envA profileASolveResult.profile g)
      ∧ profileASolveResult.delta_n
        = some (excessParticles envA profileASolveResult.profile) :=
  (post_process_excess_quantities envA profileA profileASolveResult
    profileA profileASolveResult).1 (by
      simp only [MicelleProfile.solve, MicelleProfile.post_process, envA,
        profileA, profileASolveResult]
      norm_num [bulkA, funext_iff])

/-- C7: the density update of each CMC outer iteration is a rigid additive
shift per row — every grid point of a row moves by the same delta (the new
bulk partial density of the row's component minus the current domain-edge
density), so differences between any two grid points are preserved and the
domain-edge value after the shift equals the new bulk partial density. -/
theorem cmc_density_shift_rigid {m n : ℕ} (env : DFTEnv m n)
    (newBulk : BulkState) (density : Fin m → Fin (n+1) → ℚ)
    (i : Fin m) (k k1 k2 : Fin (n+1)) :
    shiftDensity env newBulk density i k - density i k
      = newBulk.partial_density (env.componentIndex i) - density i (Fin.last n)
    ∧ shiftDensity env newBulk density i k1 - shiftDensity env newBulk density i k2
      = density i k1 - density i k2
    ∧ shiftDensity env newBulk density i (Fin.last n)
      = newBulk.partial_density (env.componentIndex i) := by
  refine ⟨?_, ?_, ?_⟩ <;> simp only [shiftDensity] <;> ring

/-- C9: `update_specification` returns a value equal to the original
profile with the new specification attached and both derived scalars reset
to `none`; every other field (grid, density, external potential, bulk) is
that of the original, and — the embedding being one of values — the
original is untouched and the two profiles evolve independently. -/
theorem update_specification_characterization {m n : ℕ}
    (p : MicelleProfile m n) (s : MicelleSpecification) :
    MicelleProfile.update_specification p s
      = { profile :=
            { r := p.profile.r
              density := p.profile.density
              external_potential := p.profile.external_potential
              bulk := p.profile.bulk
              specification := s }
          delta_omega := none
          delta_n := none } := rfl

theorem cmBody_done_ok_elim {m n : ℕ} (env : DFTEnv m n) (T P tol t : ℚ)
    (p q : MicelleProfile m n) (h : cmBody env T P tol t p = .done (.ok q)) :
    q = p := by
  unfold cmBody at h
  split at h
  · injection h with h1
    cases h1
  · split at h
    · injection h with h1
      injection h1 with h2
      exact h2.symm
    · split at h
      · injection h with h1
        cases h1
      · split at h
        · injection h with h1
          cases h1
        · cases h

theorem micelleInvariant_pin {m n : ℕ} (env : DFTEnv m n) (p : MicelleProfile m n)
    (h : micelleInvariant env p) : micelleInvariant env (pinSpecification p) := h

theorem cmLoop_ok_invariant {m n : ℕ} (env : DFTEnv m n) (T P tol t : ℚ) :
    ∀ (fuel : ℕ) (p p' : MicelleProfile m n), micelleInvariant env p →
      cmLoop env T P tol t fuel p = .ok p' → micelleInvariant env p' := by
  intro fuel
  induction fuel with
  | zero => intro p p' _ h; cases h
  | succ f ih =>
      intro p p' hinv h
      cases hb : cmBody env T P tol t p with
      | done res =>
          rw [cmLoop_succ_done env T P tol t f p res hb] at h
          cases h
          have := cmBody_done_ok_elim env T P tol t p p' hb
          rw [this]
          exact hinv
      | next p1 =>
          rw [cmLoop_succ_next env T P tol t f p p1 hb] at h
          obtain ⟨omega, dn, _, _, hstep⟩ := cmBody_next_elim env T P tol t p p1 hb
          obtain ⟨q, hq⟩ := cmStep_ok_elim env T P p omega dn p1 hstep
          exact ih p1 p' (Or.inr (solve_ok_scalars env q p1 hq)) h

/-- The externally observable operations on a `MicelleProfile` after
construction: the two solves, the specification swap and the CMC search
(restricted to their successful outcomes). -/
inductive MStep {m n : ℕ} (env : DFTEnv m n) :
    MicelleProfile m n → MicelleProfile m n → Prop where
  | solve (p p' : MicelleProfile m n) :
      MicelleProfile.solve env p = .ok p' → MStep env p p'
  | solve_micelle (p p' : MicelleProfile m n) :
      MicelleProfile.solve_micelle env p = .ok p' → MStep env p p'
  | update_specification (p : MicelleProfile m n) (s : MicelleSpecification) :
      MStep env p (MicelleProfile.update_specification p s)
  | critical_micelle (p p' : MicelleProfile m n) (options : SolverOptions) :
      MicelleProfile.critical_micelle env p options = .ok p' → MStep env p p'

/-- C3: at construction both derived scalars are `none`, and every
operation preserves the invariant that `delta_omega`/`delta_n` are either
both undefined, or both defined and equal to the post-processing formulas
evaluated at the profile's current density and bulk — i.e. they are
defined exactly when they stem from a solve not followed by any
specification change or density mutation. -/
theorem delta_scalars_iff_solved {m n : ℕ} (env : DFTEnv m n) :
    (∀ (bulk : BulkState) (grid : Fin (n+1) → ℚ)
        (init : MicelleInitialization m n) (s : MicelleSpecification),
      (MicelleProfile.new env bulk grid init s).delta_omega = none
      ∧ (MicelleProfile.new env bulk grid init s).delta_n = none)
    ∧ (∀ p p' : MicelleProfile m n,
      micelleInvariant env p → MStep env p p' → micelleInvariant env p') := by
  refine ⟨fun _ _ _ _ => ⟨rfl, rfl⟩, fun p p' hinv hstep => ?_⟩
  cases hstep with
  | solve a h => exact Or.inr (solve_ok_scalars env _ _ h)
  | solve_micelle a h => exact Or.inr (solve_micelle_ok_scalars env _ _ h)
  | update_specification s => exact Or.inl ⟨rfl, rfl⟩
  | critical_micelle a options h =>
      simp only [MicelleProfile.critical_micelle] at h
      exact cmLoop_ok_invariant env _ _ _ _ _ (pinSpecification p) p'
        (micelleInvariant_pin env p hinv) h

theorem delta_scalars_iff_solved_witness :
    micelleInvariant envA
      (MicelleProfile.update_specification profileA .ChemicalPotential) :=
  (delta_scalars_iff_solved envA).2 profileA
    (MicelleProfile.update_specification profileA .ChemicalPotential)
    (Or.inl ⟨rfl, rfl⟩)
    (MStep.update_specification profileA .ChemicalPotential)

/-- C4: `critical_micelle` returns `Ok` with the current profile as soon
as, at the start of one of its at most `max_iter` iterations (default
`MAX_ITER_MICELLE = 50`), `|delta_omega|` is below `tol` (default
`TOL_MICELLE = 1e-5`) times the reduced temperature; when the loop runs
through the whole iteration budget without the criterion ever holding, it
returns the not-converged error naming the operation instead of a
profile. -/
theorem critical_micelle_converges_or_exhausts {m n : ℕ} (env : DFTEnv m n)
    (p : MicelleProfile m n) (options : SolverOptions) :
    MAX_ITER_MICELLE = 50 ∧ TOL_MICELLE = 1 / 100000
    ∧ (∀ (k : ℕ) (q : MicelleProfile m n) (omega : ℚ),
        cmOrbit env p.profile.bulk.temperature p.profile.bulk.pressure
            (options.tol.getD TOL_MICELLE) p.profile.bulk.temperature k
            (pinSpecification p) = some q →
        q.delta_omega = some omega →
        |omega| < options.tol.getD TOL_MICELLE * p.profile.bulk.temperature →
        k < options.max_iter.getD MAX_ITER_MICELLE →
        MicelleProfile.critical_micelle env p options = .ok q)
    ∧ ((∃ q, cmOrbit env p.profile.bulk.temperature p.profile.bulk.pressure
            (options.tol.getD TOL_MICELLE) p.profile.bulk.temperature
            (options.max_iter.getD MAX_ITER_MICELLE) (pinSpecification p) = some q) →
        MicelleProfile.critical_micelle env p options
          = .error (.notConverged "MicelleProfile::criticelle_micelle")) := by
  refine ⟨rfl, rfl, ?_, ?_⟩
  · intro k q omega horb h1 h2 hk
    simp only [MicelleProfile.critical_micelle]
    exact cmOrbit_converged_loop env _ _ _ _ k _ (pinSpecification p) q omega
      horb h1 h2 hk
  · rintro ⟨q, horb⟩
    simp only [MicelleProfile.critical_micelle]
    exact cmOrbit_full_loop env _ _ _ _ _ (pinSpecification p) q horb

theorem critical_micelle_converges_witness :
    MicelleProfile.critical_micelle envA profileB { max_iter := none, tol := none }
      = .ok (pinSpecification profileB) :=
  (critical_micelle_converges_or_exhausts envA profileB
    { max_iter := none, tol := none }).2.2.1 0 (pinSpecification profileB) 0
    rfl rfl (by norm_num [profileB, profileA, bulkA, TOL_MICELLE]) (by decide)

/-- C10: `critical_micelle` implicitly requires a profile whose
`delta_omega` and `delta_n` are defined (one solved since construction or
since the last `update_specification`).  If `delta_omega` is `none` and the
iteration budget is nonzero, the convergence check unwraps the absent value
and the process aborts (`panic`) instead of returning an error; when the
precondition holds, no unwrap in the function is ever reached with an
absent value, so the search never panics. -/
theorem critical_micelle_unwrap_safety {m n : ℕ} (env : DFTEnv m n)
    (p : MicelleProfile m n) (options : SolverOptions) :
    (p.delta_omega = none → 1 ≤ options.max_iter.getD MAX_ITER_MICELLE →
      MicelleProfile.critical_micelle env p options = .panic)
    ∧ (p.delta_omega.isSome → p.delta_n.isSome →
      MicelleProfile.critical_micelle env p options ≠ .panic) := by
  constructor
  · intro hnone hfuel
    simp only [MicelleProfile.critical_micelle]
    obtain ⟨f, hf⟩ : ∃ f, options.max_iter.getD MAX_ITER_MICELLE = f + 1 :=
      ⟨options.max_iter.getD MAX_ITER_MICELLE - 1, by omega⟩
    rw [hf]
    exact cmLoop_succ_done env _ _ _ _ f (pinSpecification p) .panic
      (cmBody_panic_of_none env _ _ _ _ (pinSpecification p) hnone)
  · intro h1 h2
    simp only [MicelleProfile.critical_micelle]
    exact cmLoop_no_panic env _ _ _ _ _ (pinSpecification p) h1 h2

theorem critical_micelle_unwrap_safety_witness :
    MicelleProfile.critical_micelle envA profileA { max_iter := none, tol := none }
      = .panic :=
  (critical_micelle_unwrap_safety envA profileA
    { max_iter := none, tol := none }).1 rfl (by decide)
